import Mathlib

/-!
Verification of the topic-sequencing and mind-map layout core of the
`micro` repository (a small Node.js server).  The JavaScript source is
shallowly embedded: JS primitive values (null/undefined, numbers,
strings) become the `JSVal` type, JS truthiness, `String(...)`,
`parseInt(...)` and the `||` operator become executable Lean functions,
and the label/topic rows become structures.  The functions
`generateMindMap` (src/index.js), `getNextTopic` / `getTopicInfo`
(src/src/utils/responseHelper.js), the embedded quiz script
(src/index.js, `generateLearnPage`) and `handleLLMRequest`
(src/src/controllers/llmController.js) are translated definition by
definition.  Integer ids are modelled as `Int` (the schema uses SERIAL
integer keys); `null` and `undefined` are conflated into `JSVal.vnull`,
which is faithful for every comparison the embedded code performs.
-/

/-- A JavaScript primitive value as used by the embedded code:
`vnull` stands for both `null` and `undefined`. -/
inductive JSVal where
  | vnull : JSVal
  | vnum (n : Int) : JSVal
  | vstr (s : String) : JSVal
deriving DecidableEq, Repr

namespace JSVal

/-- JS truthiness: `null`/`undefined` are falsy, `0` is falsy, `""` is falsy. -/
def truthy : JSVal → Bool
  | vnull => false
  | vnum n => n != 0
  | vstr s => s != ""

/-- JS `String(v)` (template-literal interpolation) restricted to the
values of this model. -/
def jsString : JSVal → String
  | vnull => "null"
  | vnum n => toString n
  | vstr s => s

/-- JS `a || b`: returns `a` when truthy, otherwise `b`. -/
def jsOr (a b : JSVal) : JSVal := if truthy a then a else b

/-- Parses an optional sign followed by a decimal-digit prefix; `none`
models `NaN`. -/
def parseIntChars (cs : List Char) : Option Int :=
  let core := fun (neg : Bool) (ds : List Char) =>
    let digits := ds.takeWhile Char.isDigit
    if digits.isEmpty then (none : Option Int)
    else
      let n : Nat := digits.foldl (fun acc c => acc * 10 + (c.toNat - '0'.toNat)) 0
      some (if neg then -(n : Int) else (n : Int))
  match cs with
  | '-' :: rest => core true rest
  | '+' :: rest => core false rest
  | _ => core false cs

/-- JS `parseInt(v)`: numbers pass through (the model has only integer
numbers), strings are parsed after skipping leading whitespace, anything
else is `NaN` (modelled as `none`). -/
def jsParseInt : JSVal → Option Int
  | vnull => none
  | vnum n => some n
  | vstr s => parseIntChars (s.toList.dropWhile Char.isWhitespace)

end JSVal

open JSVal

/-- A row of the `labels` table as the JS code sees it, including the six
legacy parent-reference aliases probed by the source. -/
structure Label where
  id : JSVal
  name : JSVal
  item : JSVal
  level : JSVal
  parent_node : JSVal
  parent_node_id : JSVal
  parent_id : JSVal
  parent : JSVal
  parent_label_id : JSVal
  parent_label : JSVal
deriving DecidableEq, Repr

/-- A row of the `topics`/stack rows table as consumed by `generateMindMap`
(src/index.js): the code probes `id`, `label_id`, `label`, `name`,
`topic` and `item`. -/
structure Stack where
  id : JSVal
  label_id : JSVal
  label : JSVal
  name : JSVal
  topic : JSVal
  item : JSVal
deriving DecidableEq, Repr

/-- `node.parent_node || node.parent_node_id || node.parent_id ||
node.parent || node.parent_label_id || node.parent_label` — the alias
chain from src/index.js lines 74-79 / 293-298 and
src/src/utils/responseHelper.js lines 531-535. -/
def parentRefChain (l : Label) : JSVal :=
  jsOr l.parent_node (jsOr l.parent_node_id (jsOr l.parent_id
    (jsOr l.parent (jsOr l.parent_label_id l.parent_label))))

/-- Rules (1)-(3) of the candidate test: `n.id === v`,
`n.id === parseInt(v)`, `String(n.id) === String(v)`
(src/index.js lines 303-305). -/
def matchesById (v : JSVal) (n : Label) : Bool :=
  (n.id == v) ||
  (match jsParseInt v with
   | some k => n.id == JSVal.vnum k
   | none => false) ||
  (jsString n.id == jsString v)

/-- Rules (4)-(5) of the candidate test: `n.name === v`,
`n.name === String(v)` (src/index.js lines 306-307). -/
def matchesByName (v : JSVal) (n : Label) : Bool :=
  (n.name == v) || (n.name == JSVal.vstr (jsString v))

/-- The whole five-rule candidate predicate of src/index.js lines 302-309
(the body of the `sortedLevel1.find(n => ...)` callback). -/
def matchesParent (v : JSVal) (n : Label) : Bool :=
  matchesById v n || matchesByName v n

/-- The hierarchy resolver of src/index.js lines 292-310: read the alias
chain; when it is non-null/non-undefined, scan the candidate list in
order and return the first candidate passing any of the five rules. -/
def getParentNode (candidates : List Label) (node : Label) : Option Label :=
  let v := parentRefChain node
  if v ≠ JSVal.vnull then candidates.find? (matchesParent v) else none

/-! ## Sibling orderer

JS `Array.prototype.sort` is stable; every comparator in the source is a
chain of `localeCompare` calls on lowercased item strings.  For the
lowercased ASCII item codes the code handles, `localeCompare` agrees with
ordinary lexicographic string comparison, which is how it is modelled. -/

/-- Stable insertion: `x` goes after every element currently `≤` it, so
ties keep their input order, matching a stable comparator sort. -/
def insertLe {α : Type} (le : α → α → Bool) (x : α) : List α → List α
  | [] => [x]
  | y :: ys => if le y x then y :: insertLe le x ys else x :: y :: ys

/-- Stable sort by a total boolean `le`. -/
def sortByLe {α : Type} (le : α → α → Bool) (l : List α) : List α :=
  l.foldl (fun acc x => insertLe le x acc) []

/-- Lexicographic strict comparison of character lists by code point —
the order JS string `<`/`>` and (on the plain lowercase ASCII item codes
the code handles) `localeCompare` induce. -/
def lexLt : List Char → List Char → Bool
  | [], [] => false
  | [], _ :: _ => true
  | _ :: _, [] => false
  | c :: cs, d :: ds =>
    if c.toNat < d.toNat then true
    else if c.toNat = d.toNat then lexLt cs ds
    else false

/-- JS `a < b` on strings. -/
def strLt (a b : String) : Bool := lexLt a.data b.data

/-- `a.localeCompare(b) <= 0` for the modelled total order. -/
def strLe (a b : String) : Bool := !(strLt b a)

/-- `toLowerCase` of one character (ASCII range, which is all the item
codes contain). -/
def lowerCh (c : Char) : Char :=
  if 65 ≤ c.toNat ∧ c.toNat ≤ 90 then Char.ofNat (c.toNat + 32) else c

/-- JS `toLowerCase()`. -/
def lowerStr (s : String) : String := String.mk (s.data.map lowerCh)

/-- `(v || '').toString().toLowerCase()` — the item-key normalisation
used by every comparator in the source. -/
def lowerItem (v : JSVal) : String :=
  lowerStr (jsString (jsOr v (JSVal.vstr "")))

/-- Comparator of the level-1 sort (src/index.js lines 57-61):
ascending by lowercased item. -/
def level1Le (a b : Label) : Bool :=
  strLe (lowerItem a.item) (lowerItem b.item)

/-- Parent-item key of the level-2 comparator (src/index.js lines 94-99):
the parent is resolved with the five-rule finder; a missing parent
contributes the empty string. -/
def parentItemKey (sl1 : List Label) (n : Label) : String :=
  match getParentNode sl1 n with
  | some p => lowerItem p.item
  | none => ""

/-- Comparator of the level-2 sort (src/index.js lines 71-110): first by
the resolved parent's item, then by own item. -/
def level2Le (sl1 : List Label) (a b : Label) : Bool :=
  let pa := parentItemKey sl1 a
  let pb := parentItemKey sl1 b
  if pa = pb then strLe (lowerItem a.item) (lowerItem b.item)
  else strLt pa pb

/-- `stack.label_id || stack.label || stack.name` (src/index.js
lines 136, 208, 343). -/
def stackLabelOf (s : Stack) : JSVal :=
  jsOr s.label_id (jsOr s.label s.name)

/-- `sortedLevel2.find(n => n.id === stackLabel || n.name === stackLabel)`
(src/index.js lines 137, 344). -/
def stackParent2 (sl2 : List Label) (s : Stack) : Option Label :=
  sl2.find? (fun n => n.id == stackLabelOf s || n.name == stackLabelOf s)

/-- Comparator of the stack sort (src/index.js lines 133-184): by the
level-1 grandparent's item, then the level-2 parent's item, then own
item. -/
def stackLe (sl1 sl2 : List Label) (a b : Stack) : Bool :=
  let p2a := stackParent2 sl2 a
  let p2b := stackParent2 sl2 b
  let p1a := match p2a with
    | some n2 => getParentNode sl1 n2
    | none => none
  let p1b := match p2b with
    | some n2 => getParentNode sl1 n2
    | none => none
  let k1a := match p1a with | some p => lowerItem p.item | none => ""
  let k1b := match p1b with | some p => lowerItem p.item | none => ""
  if k1a = k1b then
    let k2a := match p2a with | some p => lowerItem p.item | none => ""
    let k2b := match p2b with | some p => lowerItem p.item | none => ""
    if k2a = k2b then strLe (lowerItem a.item) (lowerItem b.item)
    else strLt k2a k2b
  else strLt k1a k1b

/-! ## Layout engine

The three positioning loops of `generateMindMap` (src/index.js
lines 192-251) share one shape: walk a sorted column, and for each node
either copy a value looked up from an earlier column's position map or
assign the running cursor `stackY` and advance it by `nodeSpacing`.
`alignFold` is that shape; the stack loop is the instance whose child
lookup always fails (every stack takes the cursor), the level-2 and
level-1 loops are the instances whose lookup consults the previous map.
Position maps are JS `Map` objects keyed by DOM-id strings: modelled as
association lists where a later `set` shadows an earlier one and `get`
of an absent key is `undefined` (here `none`). -/

abbrev PosMap := List (String × Option Int)

/-- `m.set(k, v)`: the newest binding wins on lookup. -/
def jsMapSet (m : PosMap) (k : String) (v : Option Int) : PosMap :=
  (k, v) :: m

/-- `m.get(k)`: `undefined` (`none`) when the key is absent. -/
def jsMapGet (m : PosMap) (k : String) : Option Int :=
  match m.find? (fun p => p.1 == k) with
  | some p => p.2
  | none => none

/-- `nodeSpacing` (src/index.js line 190). -/
def nodeSpacing : Int := 120

/-- DOM id `pre + (node.id || idx)` as interpolated into a template
string (src/index.js lines 196, 204, 263). -/
def nodeKey (pre : String) (idv : JSVal) (idx : Nat) : String :=
  pre ++ jsString (jsOr idv (JSVal.vnum (Int.ofNat idx)))

def stackKey (s : Stack) (i : Nat) : String := nodeKey "stack-" s.id i

def l2Key (n : Label) (i : Nat) : String := nodeKey "node-l2-" n.id i

def l1Key (n : Label) (i : Nat) : String := nodeKey "node-l1-" n.id i

/-- One positioning loop: `f x = some v` is the "first child found, copy
its position `v`" branch, `f x = none` is the "no child, take the cursor
and advance it" branch (src/index.js lines 195-199, 203-221, 225-251). -/
def alignFold {α : Type} (f : α → Option (Option Int)) (key : α → Nat → String) :
    List α → Nat → Int → PosMap → PosMap × Int
  | [], _, y, m => (m, y)
  | x :: rest, i, y, m =>
    match f x with
    | some v => alignFold f key rest (i + 1) y (jsMapSet m (key x i) v)
    | none => alignFold f key rest (i + 1) (y + nodeSpacing) (jsMapSet m (key x i) (some y))

/-- `sortedStacks.find(stack => stackLabel === node2.id || stackLabel ===
node2.name)` (src/index.js lines 207-210). -/
def firstStackFor (ss : List Stack) (n : Label) : Option Stack :=
  ss.find? (fun s => stackLabelOf s == n.id || stackLabelOf s == n.name)

/-- The level-2 child lookup of the level-1 loop (src/index.js
lines 229-240): the raw alias chain compared with `node1.id`/`node1.name`
directly and in string form (no `parseInt` rule here). -/
def firstLevel2For (sl2 : List Label) (n1 : Label) : Option Label :=
  sl2.find? (fun n2 =>
    let pv := parentRefChain n2
    pv == n1.id || pv == n1.name ||
      jsString pv == jsString n1.id || jsString pv == jsString n1.name)

/-- The computed layout data of one `generateMindMap` call. -/
structure Layout where
  sl1 : List Label
  sl2 : List Label
  ss : List Stack
  stackPos : PosMap
  l2Pos : PosMap
  l1Pos : PosMap
  finalY : Int
deriving Repr

/-- The positioning passes of src/index.js lines 192-251, in source
order: stack rows first (cursor from 0), then level-2 (aligning with the
first associated stack), then level-1 (aligning with the first
associated level-2 node); the cursor `stackY` persists across all three
loops. -/
def computeLayout (level1 level2 : List Label) (stackRows : List Stack) : Layout :=
  let sl1 := sortByLe level1Le level1
  let sl2 := sortByLe (level2Le sl1) level2
  let ss := sortByLe (stackLe sl1 sl2) stackRows
  let sp := alignFold (fun _ => none) stackKey ss 0 0 []
  let lp2 := alignFold
    (fun n => (firstStackFor ss n).map
      (fun fs => jsMapGet sp.1 (stackKey fs (ss.indexOf fs))))
    l2Key sl2 0 sp.2 []
  let lp1 := alignFold
    (fun n1 => (firstLevel2For sl2 n1).map
      (fun c => jsMapGet lp2.1 (l2Key c (sl2.indexOf c))))
    l1Key sl1 0 lp2.2 []
  ⟨sl1, sl2, ss, sp.1, lp2.1, lp1.1, lp1.2⟩

/-! ## Edge generation -/

/-- A rendered connection descriptor (`from`/`to` are reserved words in
Lean, so the fields are `efrom`/`eto`). -/
structure Conn where
  efrom : String
  eto : String
  etype : String
deriving DecidableEq, Repr

/-- `if (!connections.some(c => c.from === f && c.to === t))
connections.push({from, to, type})` (src/index.js lines 315-317,
348-349). -/
def addConn (cs : List Conn) (f t ty : String) : List Conn :=
  if cs.any (fun c => c.efrom == f && c.eto == t) then cs
  else cs ++ [⟨f, t, ty⟩]

/-- The level-1 → level-2 connection pass inside the column-2 loop
(src/index.js lines 285-318): resolve the parent with the five-rule
finder; on success add a deduplicated edge whose endpoint ids use the
`id || index` fallback. -/
def l1l2Conns (sl1 : List Label) : List Label → Nat → List Conn → List Conn
  | [], _, cs => cs
  | n2 :: rest, i, cs =>
    let cs' := match getParentNode sl1 n2 with
      | some p =>
        addConn cs ("node-l1-" ++ jsString (jsOr p.id (JSVal.vnum (Int.ofNat (sl1.indexOf p)))))
          (l2Key n2 i) "l1-l2"
      | none => cs
    l1l2Conns sl1 rest (i + 1) cs'

/-- The level-2 → stack connection pass inside the column-3 loop
(src/index.js lines 340-350): find the owning level-2 node by
`id === stackLabel || name === stackLabel`; the parent endpoint id is
`node-l2-` + the parent's id with no index fallback (line 345). -/
def l2StackConns (sl2 : List Label) : List Stack → Nat → List Conn → List Conn
  | [], _, cs => cs
  | s :: rest, i, cs =>
    let cs' := match stackParent2 sl2 s with
      | some p2 => addConn cs ("node-l2-" ++ jsString p2.id) (stackKey s i) "l2-stack"
      | none => cs
    l2StackConns sl2 rest (i + 1) cs'

/-- The whole connection list of one `generateMindMap` call: the
column-2 pass runs before the column-3 pass on one shared list. -/
def connectionsOf (level1 level2 : List Label) (stackRows : List Stack) : List Conn :=
  let L := computeLayout level1 level2 stackRows
  l2StackConns L.sl2 L.ss 0 (l1l2Conns L.sl1 L.sl2 0 [])

/-- `generateMindMap` returns the empty-state marker before any layout
work when the level-1 list is empty (src/index.js lines 52-54). -/
def generateMindMapLayout (level1 level2 : List Label) (stackRows : List Stack) :
    Option (Layout × List Conn) :=
  if level1.isEmpty then none
  else some (computeLayout level1 level2 stackRows, connectionsOf level1 level2 stackRows)

/-! ## Topic sequencer (src/src/utils/responseHelper.js)

The storage collaborator is pure in the embedding: a `DB` record holds
the `topics` rows (each already joined with its label, as the
`labels!inner` select returns them — `currentTopic.label ||
currentTopic.labels?.[0]` collapses to one `Option Label` field) and the
level-2 label rows that `.eq('level', 2)` would return. -/

/-- A `topics` row joined with its label. -/
structure TopicWL where
  id : JSVal
  topic : JSVal
  label_id : JSVal
  label : Option Label
deriving DecidableEq, Repr

/-- The read-only storage state seen by `getNextTopic`. -/
structure DB where
  topics : List TopicWL
  level2Labels : List Label
deriving Repr

/-- `getTopicInfo` (responseHelper.js lines 375-460) as a pure lookup:
when the id parses as an integer the integer query is tried first, then
the direct query with the original value; row absent means the 404
branch. -/
def getTopicInfo (db : DB) (topicId : JSVal) : Option TopicWL :=
  match jsParseInt topicId with
  | some n =>
    match db.topics.find? (fun t => t.id == JSVal.vnum n) with
    | some t => some t
    | none => db.topics.find? (fun t => t.id == topicId)
  | none => db.topics.find? (fun t => t.id == topicId)

/-- The lowercased item of a topic's label:
`((t.labels?.[0] || t.label)?.item || '').toString().toLowerCase()`
(responseHelper.js lines 543-544, 557). -/
def topicItemKey (t : TopicWL) : String :=
  match t.label with
  | some l => lowerItem l.item
  | none => ""

/-- The sibling filter (responseHelper.js lines 526-539): topics whose
label's alias-chain parent reference equals the current label's, by
identity or by string form. -/
def sameParentTopicsOf (topics : List TopicWL) (currentLabel : Label) : List TopicWL :=
  topics.filter (fun t =>
    match t.label with
    | none => false
    | some l =>
      parentRefChain l == parentRefChain currentLabel ||
        jsString (parentRefChain l) == jsString (parentRefChain currentLabel))

/-- The forward scan (responseHelper.js lines 555-565): first later
sibling whose lowercased label item strictly exceeds the current one. -/
def scanGreater (currentItem : String) : List TopicWL → Option TopicWL
  | [] => none
  | t :: ts => if strLt currentItem (topicItemKey t) then some t else scanGreater currentItem ts

/-- Steps 2-3 of the sequencer (responseHelper.js lines 526-566): filter
the same-parent topics, sort them by label item, locate the current
topic by id (with string fallback), then scan forward from the next
index. -/
def findNextSibling (topics : List TopicWL) (currentTopic : TopicWL)
    (currentLabel : Label) : Option TopicWL :=
  let currentItem := lowerItem currentLabel.item
  let sorted := sortByLe (fun a b => strLe (topicItemKey a) (topicItemKey b))
    (sameParentTopicsOf topics currentLabel)
  match sorted.findIdx? (fun t =>
      t.id == currentTopic.id || jsString t.id == jsString currentTopic.id) with
  | none => none
  | some i =>
    if i < sorted.length - 1 then scanGreater currentItem (sorted.drop (i + 1)) else none

/-- Key of the storage-side `.order('item', ascending)` on the `labels`
table (responseHelper.js line 579).  The claims only exercise non-null
text items, so Postgres's NULLS-LAST refinement is not modelled. -/
def dbItemKey (l : Label) : String := jsString l.item

/-- Integer key of `.order('id', ascending)` on the `topics` table; the
schema declares `id SERIAL PRIMARY KEY`, so ids are integers. -/
def topicIdKey (t : TopicWL) : Int :=
  match t.id with
  | JSVal.vnum n => n
  | _ => 0

/-- `.eq('label_id', nextParentLabel.id).order('id').limit(1)`
(responseHelper.js lines 598-612): the matching topic with the least id. -/
def firstTopicByIdAsc (ts : List TopicWL) : Option TopicWL :=
  match sortByLe (fun a b => decide (topicIdKey a ≤ topicIdKey b)) ts with
  | [] => none
  | t :: _ => some t

/-- Step 4 of the sequencer (responseHelper.js lines 568-624): when the
current label's alias-chain reference is truthy, fetch the level-2
labels in item order, locate the current parent by id (string fallback),
take the first level-2 label with a strictly greater lowercased item,
and return its first topic by ascending id. -/
def findNextByParent (db : DB) (currentLabel : Label) : Option TopicWL :=
  let p := parentRefChain currentLabel
  if truthy p then
    let parentLabels := sortByLe (fun a b => strLe (dbItemKey a) (dbItemKey b)) db.level2Labels
    match parentLabels.find? (fun l => l.id == p || jsString l.id == jsString p) with
    | none => none
    | some cur =>
      let curItem := lowerItem cur.item
      match parentLabels.find? (fun l => strLt curItem (lowerItem l.item)) with
      | none => none
      | some nextL => firstTopicByIdAsc (db.topics.filter (fun t => t.label_id == nextL.id))
  else none

/-- Outcome of one `getNextTopic` call: the 404 branches, a successful
topic, or the terminal `data: null` success (responseHelper.js
lines 469-641). -/
inductive NTResult where
  | notFound : NTResult
  | found (t : TopicWL) : NTResult
  | endOfCourse : NTResult
deriving DecidableEq, Repr

/-- `getNextTopic` (responseHelper.js lines 469-641): resolve the topic
and its label (404 on either failure), try the same-parent sibling scan,
then the next-parent-label path, and finally succeed with `data: null`. -/
def getNextTopic (db : DB) (currentTopicId : JSVal) : NTResult :=
  match getTopicInfo db currentTopicId with
  | none => .notFound
  | some currentTopic =>
    match currentTopic.label with
    | none => .notFound
    | some currentLabel =>
      match findNextSibling db.topics currentTopic currentLabel with
      | some t => .found t
      | none =>
        match findNextByParent db currentLabel with
        | some t => .found t
        | none => .endOfCourse

/-! ## Quiz progress tracker (src/index.js, `generateLearnPage` script)

The embedded client script keeps `correctAnswers`, the
`answeredQuestions` set, the per-question `questionAnswered` flag and
the disabled state of the radio options.  `submitAnswer`
(src/index.js lines 609-657) is modelled as a pure transition on that
state; a question's options are the rendered `data-correct` strings and
the selection is an option index. -/

structure QuizState where
  correctAnswers : Nat
  answeredQuestions : List String
  questionAnswered : Bool
  locked : List Nat
deriving DecidableEq, Repr

/-- `submitAnswer` (src/index.js lines 609-657): a no-op once
`questionAnswered` is set or with nothing selected; a correct submission
disables every option, sets `questionAnswered` and bumps the count only
for an unseen question id; a wrong submission disables exactly the
chosen option (re-enabling all others, lines 587-606) and leaves the
count and the answered set alone. -/
def submitAnswer (st : QuizState) (qid : String) (optCorrect : List String)
    (sel : Option Nat) : QuizState :=
  if st.questionAnswered then st
  else
    match sel with
    | none => st
    | some i =>
      if optCorrect.getD i "" == "true" then
        { st with
          questionAnswered := true
          locked := List.range optCorrect.length
          correctAnswers :=
            if qid ∈ st.answeredQuestions then st.correctAnswers else st.correctAnswers + 1
          answeredQuestions :=
            if qid ∈ st.answeredQuestions then st.answeredQuestions
            else qid :: st.answeredQuestions }
      else { st with locked := [i] }

/-! ## LLM controller (src/src/controllers/llmController.js) -/

/-- Where one `handleLLMRequest` call ends up: the 400 validation
failure, the 500 missing-key failure, or the upstream `generateContent`
call with the trimmed prompt (what happens after that call is the
collaborator's business). -/
inductive LLMOutcome where
  | badRequest : LLMOutcome
  | configError : LLMOutcome
  | upstreamCall (contents : String) : LLMOutcome
deriving DecidableEq, Repr

/-- JS `s.trim()`: strip leading and trailing whitespace. -/
def jsTrim (s : String) : String :=
  String.mk ((s.data.dropWhile Char.isWhitespace).reverse.dropWhile Char.isWhitespace).reverse

/-- `handleLLMRequest` (llmController.js lines 47-80):
`!prompt || typeof prompt !== 'string' || prompt.trim().length === 0`
returns the 400 result before anything else; a missing API key returns
the 500 result; otherwise the upstream call is made with
`prompt.trim()`. -/
def handleLLMRequest (apiKeySet : Bool) (prompt : JSVal) : LLMOutcome :=
  if !truthy prompt then .badRequest
  else
    match prompt with
    | JSVal.vstr s =>
      if (jsTrim s).length == 0 then .badRequest
      else if !apiKeySet then .configError
      else .upstreamCall (jsTrim s)
    | _ => .badRequest

/-! ## Reference definitions and concrete fixtures used by the theorems -/

/-- Modelled from the amended claim: the parent reference used is the
first alias, in the fixed priority order, whose value is truthy; when
every alias is falsy the chain evaluates to the last alias's value. -/
def firstTruthyAlias (l : Label) : JSVal :=
  match [l.parent_node, l.parent_node_id, l.parent_id, l.parent,
         l.parent_label_id, l.parent_label].find? truthy with
  | some v => v
  | none => l.parent_label

/-- Two connections differ in their `(from, to)` pair. -/
def connKeyDistinct (a b : Conn) : Prop := a.efrom ≠ b.efrom ∨ a.eto ≠ b.eto

/-- Sibling-scenario fixture: the label of topic `T1`, item `"A"`,
parent reference `np`. -/
def c1LabelA (np : Int) : Label :=
  ⟨vnum 21, vnull, vstr "A", vnum 2, vnum np, vnull, vnull, vnull, vnull, vnull⟩

/-- Sibling-scenario fixture: the label of topic `T2`, item `"B"`, same
parent reference `np`. -/
def c1LabelB (np : Int) : Label :=
  ⟨vnum 22, vnull, vstr "B", vnum 2, vnum np, vnull, vnull, vnull, vnull, vnull⟩

/-- Sibling-scenario fixture: the level-2 parent label itself, with id
`np` and no further level-2 label of greater item. -/
def c1Parent (np : Int) : Label :=
  ⟨vnum np, vnull, vstr "Z", vnum 2, vnull, vnull, vnull, vnull, vnull, vnull⟩

/-- Sibling-scenario fixture: topic `T1` (id `n1`) under the item-"A"
label. -/
def c1T1 (n1 np : Int) : TopicWL := ⟨vnum n1, vnull, vnum 21, some (c1LabelA np)⟩

/-- Sibling-scenario fixture: topic `T2` (id `n2`) under the item-"B"
label. -/
def c1T2 (n2 np : Int) : TopicWL := ⟨vnum n2, vnull, vnum 22, some (c1LabelB np)⟩

/-- Sibling-scenario fixture: the whole storage state. -/
def c1DB (n1 n2 np : Int) : DB := ⟨[c1T1 n1 np, c1T2 n2 np], [c1Parent np]⟩

/-- Hierarchy-resolver fixture: a node whose parent reference is the
string `"5"`. -/
def c2NodeChild : Label :=
  ⟨vnum 7, vnull, vnull, vnum 2, vstr "5", vnull, vnull, vnull, vnull, vnull⟩

/-- Hierarchy-resolver fixture: a candidate matching `"5"` only by name
(id 99, name `"5"`). -/
def c2CandA : Label :=
  ⟨vnum 99, vstr "5", vnull, vnum 1, vnull, vnull, vnull, vnull, vnull, vnull⟩

/-- Hierarchy-resolver fixture: a candidate matching `"5"` by id
(id 5). -/
def c2CandB : Label :=
  ⟨vnum 5, vstr "X", vnull, vnum 1, vnull, vnull, vnull, vnull, vnull, vnull⟩

/-- End-to-end fixture: the single level-1 label of the spec's test
vector. -/
def c4Level1 : Label :=
  ⟨vnum 1, vstr "Root", vstr "A", vnum 1, vnull, vnull, vnull, vnull, vnull, vnull⟩

/-- End-to-end fixture: the single level-2 label, `parent_id: 1`. -/
def c4Level2 : Label :=
  ⟨vnum 2, vstr "Child", vstr "A", vnum 2, vnull, vnull, vnum 1, vnull, vnull, vnull⟩

/-- End-to-end fixture: the single topic row, `label_id: 2`. -/
def c4Stack : Stack := ⟨vnum 10, vnum 2, vnull, vnull, vnull, vstr "A"⟩

/-- Next-parent scenario fixture: level-2 label `L2a`, item `"1"`. -/
def c5L2a : Label :=
  ⟨vnum 100, vnull, vstr "1", vnum 2, vnull, vnull, vnull, vnull, vnull, vnull⟩

/-- Next-parent scenario fixture: level-2 label `L2b`, item `"2"`. -/
def c5L2b : Label :=
  ⟨vnum 200, vnull, vstr "2", vnum 2, vnull, vnull, vnull, vnull, vnull, vnull⟩

/-- Next-parent scenario fixture: the current topic's label, whose
parent reference points at `L2a`. -/
def c5L0 : Label :=
  ⟨vnum 50, vnull, vstr "x", vnum 3, vnum 100, vnull, vnull, vnull, vnull, vnull⟩

/-- Next-parent scenario fixture: the label of `L2b`'s topics, parent
reference pointing at `L2b`. -/
def c5L3 : Label :=
  ⟨vnum 60, vnull, vstr "y", vnum 3, vnum 200, vnull, vnull, vnull, vnull, vnull⟩

/-- Next-parent scenario fixture: the exhausted current topic. -/
def c5T0 : TopicWL := ⟨vnum 5, vnull, vnum 50, some c5L0⟩

/-- Next-parent scenario fixture: `T3`, the topic of `L2b` with the
lower id `m3`. -/
def c5T3 (m3 : Int) : TopicWL := ⟨vnum m3, vnull, vnum 200, some c5L3⟩

/-- Next-parent scenario fixture: another topic of `L2b` with the higher
id `m4`, listed before `T3` in storage order. -/
def c5T4 (m4 : Int) : TopicWL := ⟨vnum m4, vnull, vnum 200, some c5L3⟩

/-- Next-parent scenario fixture: the whole storage state. -/
def c5DB (m3 m4 : Int) : DB := ⟨[c5T0, c5T4 m4, c5T3 m3], [c5L2a, c5L2b]⟩

/-- End-of-course fixture: a parentless label. -/
def c6Lab : Label :=
  ⟨vnum 1, vnull, vstr "A", vnum 2, vnull, vnull, vnull, vnull, vnull, vnull⟩

/-- End-of-course fixture: the only topic. -/
def c6Top : TopicWL := ⟨vnum 9, vnull, vnum 1, some c6Lab⟩

/-- End-of-course fixture: the whole storage state. -/
def c6DB : DB := ⟨[c6Top], []⟩

/-- Alignment-witness fixture: one level-1 label. -/
def c3W1 : Label :=
  ⟨vnum 3, vstr "R", vstr "A", vnum 1, vnull, vnull, vnull, vnull, vnull, vnull⟩

/-- Alignment-witness fixture: one level-2 label, child of the level-1
label. -/
def c3W2 : Label :=
  ⟨vnum 4, vstr "C", vstr "A", vnum 2, vnum 3, vnull, vnull, vnull, vnull, vnull⟩

/-- Alignment-witness fixture: one topic row under the level-2 label. -/
def c3W3 : Stack := ⟨vnum 11, vnum 4, vnull, vnull, vnull, vstr "A"⟩

/-! ## Helper lemmas -/

theorem addConn_pairwise {cs : List Conn} (f t ty : String)
    (h : cs.Pairwise connKeyDistinct) : (addConn cs f t ty).Pairwise connKeyDistinct := by
  unfold addConn
  split
  · exact h
  · rename_i hany
    rw [List.pairwise_append]
    refine ⟨h, List.pairwise_singleton _ _, ?_⟩
    intro a ha b hb
    simp only [List.mem_singleton] at hb
    subst hb
    simp only [List.any_eq_true, Bool.and_eq_true, beq_iff_eq, not_exists, not_and] at hany
    rcases Decidable.em (a.efrom = f) with hf | hf
    · exact Or.inr (fun hto => hany a ha hf hto)
    · exact Or.inl hf

theorem l1l2Conns_pairwise (sl1 : List Label) :
    ∀ (l : List Label) (i : Nat) (cs : List Conn), cs.Pairwise connKeyDistinct →
      (l1l2Conns sl1 l i cs).Pairwise connKeyDistinct := by
  intro l
  induction l with
  | nil => intro i cs h; exact h
  | cons n2 rest ih =>
    intro i cs h
    unfold l1l2Conns
    cases getParentNode sl1 n2 with
    | some p => exact ih (i + 1) _ (addConn_pairwise _ _ _ h)
    | none => exact ih (i + 1) _ h

theorem l2StackConns_pairwise (sl2 : List Label) :
    ∀ (l : List Stack) (i : Nat) (cs : List Conn), cs.Pairwise connKeyDistinct →
      (l2StackConns sl2 l i cs).Pairwise connKeyDistinct := by
  intro l
  induction l with
  | nil => intro i cs h; exact h
  | cons st rest ih =>
    intro i cs h
    unfold l2StackConns
    cases stackParent2 sl2 st with
    | some p2 => exact ih (i + 1) _ (addConn_pairwise _ _ _ h)
    | none => exact ih (i + 1) _ h

theorem alignFold_fst_append {α : Type} (f : α → Option (Option Int)) (key : α → Nat → String) :
    ∀ (l : List α) (i : Nat) (y : Int) (m : PosMap),
      (alignFold f key l i y m).1 = (alignFold f key l i y []).1 ++ m := by
  intro l
  induction l with
  | nil => intro i y m; simp [alignFold]
  | cons x rest ih =>
    intro i y m
    cases hf : f x with
    | some v =>
      simp only [alignFold, hf]
      rw [ih (i + 1) y (jsMapSet m (key x i) v), ih (i + 1) y (jsMapSet [] (key x i) v)]
      simp [jsMapSet]
    | none =>
      simp only [alignFold, hf]
      rw [ih (i + 1) (y + nodeSpacing) (jsMapSet m (key x i) (some y)),
          ih (i + 1) (y + nodeSpacing) (jsMapSet [] (key x i) (some y))]
      simp [jsMapSet]

theorem alignFold_snd {α : Type} (f : α → Option (Option Int)) (key : α → Nat → String) :
    ∀ (l : List α) (i : Nat) (y : Int) (m : PosMap),
      (alignFold f key l i y m).2 =
        y + nodeSpacing * ((l.filter (fun z => (f z).isNone)).length : Int) := by
  intro l
  induction l with
  | nil => intro i y m; simp [alignFold]
  | cons x rest ih =>
    intro i y m
    cases hf : f x with
    | some v =>
      simp only [alignFold, hf]
      rw [ih]
      simp [List.filter_cons, hf]
    | none =>
      simp only [alignFold, hf]
      rw [ih]
      simp [List.filter_cons, hf]
      ring

theorem alignFold_mem {α : Type} (f : α → Option (Option Int)) (key : α → Nat → String) :
    ∀ (l : List α) (i : Nat) (y : Int) (p : String × Option Int),
      p ∈ (alignFold f key l i y []).1 →
      ∃ j x, l.get? j = some x ∧ p.1 = key x (i + j) := by
  intro l
  induction l with
  | nil => intro i y p hp; simp [alignFold] at hp
  | cons a rest ih =>
    intro i y p hp
    cases hf : f a with
    | some v =>
      simp only [alignFold, hf] at hp
      rw [alignFold_fst_append] at hp
      rcases List.mem_append.mp hp with hin | hin
      · obtain ⟨j, x, hget, hkey⟩ := ih (i + 1) y p hin
        refine ⟨j + 1, x, by simpa using hget, ?_⟩
        rw [hkey]
        congr 1
        omega
      · simp [jsMapSet] at hin
        refine ⟨0, a, by simp, ?_⟩
        rw [hin]
        simp
    | none =>
      simp only [alignFold, hf] at hp
      rw [alignFold_fst_append] at hp
      rcases List.mem_append.mp hp with hin | hin
      · obtain ⟨j, x, hget, hkey⟩ := ih (i + 1) (y + nodeSpacing) p hin
        refine ⟨j + 1, x, by simpa using hget, ?_⟩
        rw [hkey]
        congr 1
        omega
      · simp [jsMapSet] at hin
        refine ⟨0, a, by simp, ?_⟩
        rw [hin]
        simp

theorem alignFold_find {α : Type} (f : α → Option (Option Int)) (key : α → Nat → String) :
    ∀ (l : List α) (i : Nat) (y : Int) (j : Nat) (x : α),
      l.get? j = some x →
      (∀ j2 x2, l.get? j2 = some x2 → j2 ≠ j → key x2 (i + j2) ≠ key x (i + j)) →
      (alignFold f key l i y []).1.find? (fun p => p.1 == key x (i + j)) =
        some (key x (i + j),
          match f x with
          | some v => v
          | none =>
              some (y + nodeSpacing * (((l.take j).filter (fun z => (f z).isNone)).length : Int))) := by
  intro l
  induction l with
  | nil => intro i y j x hx; simp at hx
  | cons a rest ih =>
    intro i y j x hx hdist
    cases j with
    | zero =>
      have hxa : x = a := by simp at hx; exact hx.symm
      subst hxa
      have hnone : ∀ (y0 : Int),
          (alignFold f key rest (i + 1) y0 []).1.find? (fun p => p.1 == key x (i + 0)) = none := by
        intro y0
        rw [List.find?_eq_none]
        intro p hp
        obtain ⟨j2, x2, hget, hkey⟩ := alignFold_mem f key rest (i + 1) y0 p hp
        have hne := hdist (j2 + 1) x2 (by simpa using hget) (by omega)
        have harith : i + (j2 + 1) = i + 1 + j2 := by omega
        rw [harith] at hne
        simp only [Nat.add_zero] at hne
        simp [hkey, hne]
      cases hf : f x with
      | some v =>
        simp only [alignFold, hf]
        rw [alignFold_fst_append, List.find?_append, hnone]
        simp [jsMapSet, List.find?, hf]
      | none =>
        simp only [alignFold, hf]
        rw [alignFold_fst_append, List.find?_append, hnone]
        simp [jsMapSet, List.find?, hf]
    | succ j2 =>
      have hget : rest.get? j2 = some x := by simpa using hx
      have harith : i + (j2 + 1) = i + 1 + j2 := by omega
      have hdist2 : ∀ j3 x3, rest.get? j3 = some x3 → j3 ≠ j2 →
          key x3 (i + 1 + j3) ≠ key x (i + 1 + j2) := by
        intro j3 x3 hg3 hne3
        have := hdist (j3 + 1) x3 (by simpa using hg3) (by omega)
        have h1 : i + (j3 + 1) = i + 1 + j3 := by omega
        rw [h1, harith] at this
        exact this
      cases hf : f a with
      | some v =>
        simp only [alignFold, hf]
        rw [alignFold_fst_append, List.find?_append, harith,
          ih (i + 1) y j2 x hget hdist2]
        simp [List.take_succ_cons, List.filter_cons, hf]
      | none =>
        simp only [alignFold, hf]
        rw [alignFold_fst_append, List.find?_append, harith,
          ih (i + 1) (y + nodeSpacing) j2 x hget hdist2]
        cases hfx : f x with
        | some v2 => simp [List.take_succ_cons, List.filter_cons, hf, hfx]
        | none =>
          simp [List.take_succ_cons, List.filter_cons, hf, hfx]
          ring

theorem alignFold_jsMapGet {α : Type} (f : α → Option (Option Int)) (key : α → Nat → String)
    (l : List α) (y : Int) (j : Nat) (x : α)
    (hx : l.get? j = some x)
    (hdist : ∀ j2 x2, l.get? j2 = some x2 → j2 ≠ j → key x2 j2 ≠ key x j) :
    jsMapGet (alignFold f key l 0 y []).1 (key x j) =
      match f x with
      | some v => v
      | none =>
          some (y + nodeSpacing * (((l.take j).filter (fun z => (f z).isNone)).length : Int)) := by
  have hd : ∀ j2 x2, l.get? j2 = some x2 → j2 ≠ j → key x2 (0 + j2) ≠ key x (0 + j) := by
    simpa using hdist
  have hfind := alignFold_find f key l 0 y j x hx hd
  simp only [Nat.zero_add] at hfind
  simp [jsMapGet, hfind]

theorem stackFold_get (ss : List Stack) (j : Nat) (s : Stack)
    (hj : ss.get? j = some s)
    (hdist : ∀ j2 s2, ss.get? j2 = some s2 → j2 ≠ j → stackKey s2 j2 ≠ stackKey s j) :
    jsMapGet (alignFold (fun _ => none) stackKey ss 0 0 []).1 (stackKey s j) =
      some (nodeSpacing * (j : Int)) := by
  have hlt : j < ss.length := by
    rcases List.get?_eq_some.mp hj with ⟨h, _⟩
    exact h
  rw [alignFold_jsMapGet (fun _ => none) stackKey ss 0 j s hj hdist]
  simp [List.length_take, Nat.min_eq_left (Nat.le_of_lt hlt)]

theorem isNone_map_opt {β γ : Type} (g : β → γ) (o : Option β) :
    (o.map g).isNone = o.isNone := by cases o <;> rfl

theorem singleton_key_distinct {α : Type} (key : α → Nat → String) (x : α) :
    ∀ j j2 s s2, ([x] : List α).get? j = some s → [x].get? j2 = some s2 → j2 ≠ j →
      key s2 j2 ≠ key s j := by
  intro j j2 s s2 h1 h2 hne
  cases j with
  | zero =>
    cases j2 with
    | zero => exact absurd rfl hne
    | succ k => simp at h2
  | succ k => simp at h1

/-! ## Claim theorems -/

/-- C1: for topics T1 (label item "A") and T2 (label item "B") that are
the siblings under one truthy parent reference, `getNextTopic` on T1's
id returns T2 (the forward scan finds the first sibling of strictly
greater lowercased item), and on T2's id — with no further same-parent
sibling and no level-2 label of greater item than the parent's —
succeeds with the terminal null result.  Topic ids and the parent
reference are arbitrary integers. -/
theorem nextTopic_sibling_pair_spec (n1 n2 np : Int) (hne : n1 ≠ n2)
    (hs : toString n1 ≠ toString n2) (hnp : np ≠ 0) :
    getNextTopic (c1DB n1 n2 np) (vnum n1) = NTResult.found (c1T2 n2 np) ∧
    getNextTopic (c1DB n1 n2 np) (vnum n2) = NTResult.endOfCourse := by
  have htr : truthy (vnum np) = true := by simp [truthy, hnp]
  have e1 : strLe (lowerItem (vstr "A")) (lowerItem (vstr "B")) = true := rfl
  have e2 : strLt (lowerItem (vstr "A")) (lowerItem (vstr "B")) = true := rfl
  have e3 : strLt (lowerItem (vstr "Z")) (lowerItem (vstr "Z")) = false := rfl
  have hb12 : (vnum n1 == vnum n2) = false := by simp [hne]
  have hb21 : (vnum n2 == vnum n1) = false := by simp [Ne.symm hne]
  have hsb : (toString n1 == toString n2) = false := by simp [hs]
  have hsb2 : (toString n2 == toString n1) = false := by simp [Ne.symm hs]
  constructor
  · simp [getNextTopic, getTopicInfo, c1DB, c1T1, c1T2, c1LabelA, c1LabelB, c1Parent,
      jsParseInt, findNextSibling, sameParentTopicsOf, parentRefChain, jsOr, htr, jsString,
      topicItemKey, sortByLe, insertLe, scanGreater, List.find?, List.filter_cons,
      List.findIdx?, e1, e2, hb12, hb21, hsb, hsb2]
  · simp [getNextTopic, getTopicInfo, c1DB, c1T1, c1T2, c1LabelA, c1LabelB, c1Parent,
      jsParseInt, findNextSibling, sameParentTopicsOf, parentRefChain, jsOr, htr, jsString,
      topicItemKey, sortByLe, insertLe, scanGreater, List.find?, List.filter_cons,
      List.findIdx?, findNextByParent, dbItemKey, firstTopicByIdAsc, topicIdKey,
      e1, e3, hb12, hb21, hsb, hsb2]

/-- C1 witness: the sibling scenario at ids 1, 2 and parent reference 7. -/
theorem nextTopic_sibling_pair_spec_witness :
    (1 : Int) ≠ 2 ∧ toString (1 : Int) ≠ toString (2 : Int) ∧ (7 : Int) ≠ 0 ∧
    getNextTopic (c1DB 1 2 7) (vnum 1) = NTResult.found (c1T2 2 7) ∧
    getNextTopic (c1DB 1 2 7) (vnum 2) = NTResult.endOfCourse := by
  have h := nextTopic_sibling_pair_spec 1 2 7 (by decide) (by decide) (by decide)
  exact ⟨by decide, by decide, by decide, h.1, h.2⟩

/-- C2 counterexample: with reference `"5"`, the candidate `c2CandB`
matches by an id rule and `c2CandA` only by a name rule, yet the
resolver returns `c2CandA` because it comes first in the candidate
list — the id-rule candidate does not win regardless of position. -/
theorem resolveParent_position_beats_rule_cx :
    matchesById (parentRefChain c2NodeChild) c2CandB = true ∧
    matchesById (parentRefChain c2NodeChild) c2CandA = false ∧
    matchesByName (parentRefChain c2NodeChild) c2CandA = true ∧
    c2CandA ≠ c2CandB ∧
    getParentNode [c2CandA, c2CandB] c2NodeChild = some c2CandA := by decide

/-- C2 amended: the five rules are tried per candidate and the
candidates are scanned in list order, so the resolver returns the first
candidate in list order that satisfies any of the five rules; in
particular a candidate matching (by any rule) that is preceded only by
non-matching candidates is returned. -/
theorem resolveParent_first_candidate_match (node : Label) (pre post : List Label) (c : Label)
    (hnn : parentRefChain node ≠ JSVal.vnull)
    (hpre : ∀ x ∈ pre, matchesParent (parentRefChain node) x = false)
    (hc : matchesParent (parentRefChain node) c = true) :
    getParentNode (pre ++ c :: post) node = some c := by
  unfold getParentNode
  simp only [hnn, if_pos, ne_eq, not_false_eq_true, if_true]
  rw [List.find?_append]
  have hnone : pre.find? (matchesParent (parentRefChain node)) = none := by
    rw [List.find?_eq_none]
    intro x hx
    simp [hpre x hx]
  rw [hnone]
  simp [List.find?_cons, hc]

/-- C2 witness: with the id-rule candidate placed first, it is the one
returned. -/
theorem resolveParent_first_candidate_match_witness :
    parentRefChain c2NodeChild ≠ JSVal.vnull ∧
    matchesParent (parentRefChain c2NodeChild) c2CandB = true ∧
    getParentNode [c2CandB, c2CandA] c2NodeChild = some c2CandB := by
  refine ⟨by decide, by decide, ?_⟩
  exact resolveParent_first_candidate_match c2NodeChild [] [c2CandA] c2CandB
    (by decide) (by simp) (by decide)

/-- C3: alignment invariant of the layout.  With the DOM-id keys of each
column pairwise distinct (the schema's SERIAL primary keys guarantee
this), (1) the j-th sorted stack sits at `j * nodeSpacing`; (2) a
level-2 label with a first associated topic is assigned exactly that
topic's position (the map lookup the code performs, and its concrete
value `nodeSpacing * index`); (3) a level-2 label with no associated
topic is appended after all stack rows by the running cursor, advancing
one pitch per childless node; (4) a level-1 label with a first
associated level-2 child is assigned exactly that child's position;
(5) a childless level-1 label is appended by the same running cursor,
which has kept counting across the level-2 pass. -/
theorem layout_alignment_invariant (level1 level2 : List Label) (stackRows : List Stack)
    (L : Layout) (hL : L = computeLayout level1 level2 stackRows)
    (hkS : ∀ j j2 s s2, L.ss.get? j = some s → L.ss.get? j2 = some s2 → j2 ≠ j →
      stackKey s2 j2 ≠ stackKey s j)
    (hk2 : ∀ j j2 n n2, L.sl2.get? j = some n → L.sl2.get? j2 = some n2 → j2 ≠ j →
      l2Key n2 j2 ≠ l2Key n j)
    (hk1 : ∀ j j2 n n2, L.sl1.get? j = some n → L.sl1.get? j2 = some n2 → j2 ≠ j →
      l1Key n2 j2 ≠ l1Key n j) :
    (∀ j s, L.ss.get? j = some s →
      jsMapGet L.stackPos (stackKey s j) = some (nodeSpacing * (j : Int))) ∧
    (∀ j n fs, L.sl2.get? j = some n → firstStackFor L.ss n = some fs →
      jsMapGet L.l2Pos (l2Key n j) =
          jsMapGet L.stackPos (stackKey fs (L.ss.indexOf fs)) ∧
        jsMapGet L.l2Pos (l2Key n j) = some (nodeSpacing * (L.ss.indexOf fs : Int))) ∧
    (∀ j n, L.sl2.get? j = some n → firstStackFor L.ss n = none →
      jsMapGet L.l2Pos (l2Key n j) =
        some (nodeSpacing * ((L.ss.length : Int) +
          ((L.sl2.take j).filter (fun z => (firstStackFor L.ss z).isNone)).length))) ∧
    (∀ j n c, L.sl1.get? j = some n → firstLevel2For L.sl2 n = some c →
      jsMapGet L.l1Pos (l1Key n j) = jsMapGet L.l2Pos (l2Key c (L.sl2.indexOf c))) ∧
    (∀ j n, L.sl1.get? j = some n → firstLevel2For L.sl2 n = none →
      jsMapGet L.l1Pos (l1Key n j) =
        some (nodeSpacing * ((L.ss.length : Int) +
          ((L.sl2.filter (fun z => (firstStackFor L.ss z).isNone)).length : Int) +
          ((L.sl1.take j).filter (fun z => (firstLevel2For L.sl2 z).isNone)).length))) := by
  subst hL
  have part1 : ∀ j s, (computeLayout level1 level2 stackRows).ss.get? j = some s →
      jsMapGet (computeLayout level1 level2 stackRows).stackPos (stackKey s j) =
        some (nodeSpacing * (j : Int)) := by
    intro j s hj
    exact stackFold_get _ j s hj (fun j2 s2 h2 hne => hkS j j2 s s2 hj h2 hne)
  have hy1 : (alignFold (fun _ => (none : Option (Option Int))) stackKey
        (computeLayout level1 level2 stackRows).ss 0 0 []).2 =
      nodeSpacing * ((computeLayout level1 level2 stackRows).ss.length : Int) := by
    rw [alignFold_snd]
    simp
  have part2 : ∀ j n fs, (computeLayout level1 level2 stackRows).sl2.get? j = some n →
      firstStackFor (computeLayout level1 level2 stackRows).ss n = some fs →
      jsMapGet (computeLayout level1 level2 stackRows).l2Pos (l2Key n j) =
          jsMapGet (computeLayout level1 level2 stackRows).stackPos
            (stackKey fs ((computeLayout level1 level2 stackRows).ss.indexOf fs)) ∧
        jsMapGet (computeLayout level1 level2 stackRows).l2Pos (l2Key n j) =
          some (nodeSpacing *
            (((computeLayout level1 level2 stackRows).ss.indexOf fs : Nat) : Int)) := by
    intro j n fs hj hfs
    have h := alignFold_jsMapGet
      (fun n2 => (firstStackFor (computeLayout level1 level2 stackRows).ss n2).map
        (fun fs2 => jsMapGet (computeLayout level1 level2 stackRows).stackPos
          (stackKey fs2 ((computeLayout level1 level2 stackRows).ss.indexOf fs2))))
      l2Key (computeLayout level1 level2 stackRows).sl2
      (alignFold (fun _ => (none : Option (Option Int))) stackKey
        (computeLayout level1 level2 stackRows).ss 0 0 []).2
      j n hj (fun j2 n2 h2 hne => hk2 j j2 n n2 hj h2 hne)
    beta_reduce at h
    rw [hfs] at h
    simp only [Option.map_some'] at h
    have hmem : fs ∈ (computeLayout level1 level2 stackRows).ss :=
      List.mem_of_find?_eq_some hfs
    have hgetq : (computeLayout level1 level2 stackRows).ss.get?
        ((computeLayout level1 level2 stackRows).ss.indexOf fs) = some fs :=
      List.indexOf_get? hmem
    have hval := part1 _ fs hgetq
    exact ⟨h, h.trans hval⟩
  have part3 : ∀ j n, (computeLayout level1 level2 stackRows).sl2.get? j = some n →
      firstStackFor (computeLayout level1 level2 stackRows).ss n = none →
      jsMapGet (computeLayout level1 level2 stackRows).l2Pos (l2Key n j) =
        some (nodeSpacing * (((computeLayout level1 level2 stackRows).ss.length : Int) +
          (((computeLayout level1 level2 stackRows).sl2.take j).filter
            (fun z => (firstStackFor (computeLayout level1 level2 stackRows).ss z).isNone)).length)) := by
    intro j n hj hmiss
    have h := alignFold_jsMapGet
      (fun n2 => (firstStackFor (computeLayout level1 level2 stackRows).ss n2).map
        (fun fs2 => jsMapGet (computeLayout level1 level2 stackRows).stackPos
          (stackKey fs2 ((computeLayout level1 level2 stackRows).ss.indexOf fs2))))
      l2Key (computeLayout level1 level2 stackRows).sl2
      (alignFold (fun _ => (none : Option (Option Int))) stackKey
        (computeLayout level1 level2 stackRows).ss 0 0 []).2
      j n hj (fun j2 n2 h2 hne => hk2 j j2 n n2 hj h2 hne)
    beta_reduce at h
    rw [hmiss] at h
    simp only [Option.map_none', isNone_map_opt] at h
    refine h.trans ?_
    rw [hy1]
    congr 1
    ring
  refine ⟨part1, part2, part3, ?_, ?_⟩
  · intro j n c hj hc
    have h := alignFold_jsMapGet
      (fun n1 => (firstLevel2For (computeLayout level1 level2 stackRows).sl2 n1).map
        (fun c2 => jsMapGet (computeLayout level1 level2 stackRows).l2Pos
          (l2Key c2 ((computeLayout level1 level2 stackRows).sl2.indexOf c2))))
      l1Key (computeLayout level1 level2 stackRows).sl1
      (alignFold
        (fun n2 => (firstStackFor (computeLayout level1 level2 stackRows).ss n2).map
          (fun fs2 => jsMapGet (computeLayout level1 level2 stackRows).stackPos
            (stackKey fs2 ((computeLayout level1 level2 stackRows).ss.indexOf fs2))))
        l2Key (computeLayout level1 level2 stackRows).sl2 0
        (alignFold (fun _ => (none : Option (Option Int))) stackKey
          (computeLayout level1 level2 stackRows).ss 0 0 []).2 []).2
      j n hj (fun j2 n2 h2 hne => hk1 j j2 n n2 hj h2 hne)
    beta_reduce at h
    rw [hc] at h
    simp only [Option.map_some'] at h
    exact h
  · intro j n hj hmiss
    have h := alignFold_jsMapGet
      (fun n1 => (firstLevel2For (computeLayout level1 level2 stackRows).sl2 n1).map
        (fun c2 => jsMapGet (computeLayout level1 level2 stackRows).l2Pos
          (l2Key c2 ((computeLayout level1 level2 stackRows).sl2.indexOf c2))))
      l1Key (computeLayout level1 level2 stackRows).sl1
      (alignFold
        (fun n2 => (firstStackFor (computeLayout level1 level2 stackRows).ss n2).map
          (fun fs2 => jsMapGet (computeLayout level1 level2 stackRows).stackPos
            (stackKey fs2 ((computeLayout level1 level2 stackRows).ss.indexOf fs2))))
        l2Key (computeLayout level1 level2 stackRows).sl2 0
        (alignFold (fun _ => (none : Option (Option Int))) stackKey
          (computeLayout level1 level2 stackRows).ss 0 0 []).2 []).2
      j n hj (fun j2 n2 h2 hne => hk1 j j2 n n2 hj h2 hne)
    beta_reduce at h
    rw [hmiss] at h
    simp only [Option.map_none', isNone_map_opt] at h
    refine h.trans ?_
    rw [alignFold_snd, hy1]
    simp only [isNone_map_opt]
    congr 1
    ring

/-- C3 witness: one label per tier, one topic; the level-2 label sits at
its topic's position and the level-1 label at its level-2 child's
position. -/
theorem layout_alignment_invariant_witness :
    jsMapGet (computeLayout [c3W1] [c3W2] [c3W3]).l2Pos (l2Key c3W2 0) =
        jsMapGet (computeLayout [c3W1] [c3W2] [c3W3]).stackPos (stackKey c3W3 0) ∧
    jsMapGet (computeLayout [c3W1] [c3W2] [c3W3]).l1Pos (l1Key c3W1 0) =
        jsMapGet (computeLayout [c3W1] [c3W2] [c3W3]).l2Pos (l2Key c3W2 0) := by
  have h := layout_alignment_invariant [c3W1] [c3W2] [c3W3]
    (computeLayout [c3W1] [c3W2] [c3W3]) rfl
    (by rw [show (computeLayout [c3W1] [c3W2] [c3W3]).ss = [c3W3] from by decide]
        exact singleton_key_distinct stackKey c3W3)
    (by rw [show (computeLayout [c3W1] [c3W2] [c3W3]).sl2 = [c3W2] from by decide]
        exact singleton_key_distinct l2Key c3W2)
    (by rw [show (computeLayout [c3W1] [c3W2] [c3W3]).sl1 = [c3W1] from by decide]
        exact singleton_key_distinct l1Key c3W1)
  constructor
  · have h2 := (h.2.1 0 c3W2 c3W3 (by decide) (by decide)).1
    have hidx : (computeLayout [c3W1] [c3W2] [c3W3]).ss.indexOf c3W3 = 0 := by decide
    rw [hidx] at h2
    exact h2
  · have h4 := h.2.2.2.1 0 c3W1 c3W2 (by decide) (by decide)
    have hidx : (computeLayout [c3W1] [c3W2] [c3W3]).sl2.indexOf c3W2 = 0 := by decide
    rw [hidx] at h4
    exact h4

/-- C4: the end-to-end test vector — one level-1 label (id 1), one
level-2 label (id 2, `parent_id: 1`), one topic (id 10, `label_id: 2`) —
yields position 0 for the topic, the level-2 label and the level-1
label, and exactly the two edges (node-l1-1 → node-l2-2) and
(node-l2-2 → stack-10), in that order. -/
theorem mindMap_end_to_end_example :
    jsMapGet (computeLayout [c4Level1] [c4Level2] [c4Stack]).stackPos "stack-10" = some 0 ∧
    jsMapGet (computeLayout [c4Level1] [c4Level2] [c4Stack]).l2Pos "node-l2-2" = some 0 ∧
    jsMapGet (computeLayout [c4Level1] [c4Level2] [c4Stack]).l1Pos "node-l1-1" = some 0 ∧
    connectionsOf [c4Level1] [c4Level2] [c4Stack] =
      [Conn.mk "node-l1-1" "node-l2-2" "l1-l2",
       Conn.mk "node-l2-2" "stack-10" "l2-stack"] := by
  decide

/-- C5: when the sibling scan is exhausted, the sequencer resolves the
current label's parent reference to the level-2 label L2a (item "1"),
finds the next level-2 label L2b (item "2") by strictly greater item,
and returns L2b's first topic by ascending id — T3 — even though a
higher-id topic of L2b is listed first in storage order.  The two topic
ids are arbitrary integers with `m3 < m4`. -/
theorem nextTopic_next_parent_first_topic (m3 m4 : Int) (hlt : m3 < m4) :
    getNextTopic (c5DB m3 m4) (vnum 5) = NTResult.found (c5T3 m3) := by
  have hd : ¬ (m4 ≤ m3) := not_le.mpr hlt
  have s11 : strLt (lowerItem (vstr "1")) (lowerItem (vstr "1")) = false := rfl
  have s12 : strLt (lowerItem (vstr "1")) (lowerItem (vstr "2")) = true := rfl
  have d12 : strLe (dbItemKey c5L2a) (dbItemKey c5L2b) = true := rfl
  simp [getNextTopic, getTopicInfo, c5DB, c5T0, c5T3, c5T4, c5L0, c5L2a, c5L2b, c5L3,
    jsParseInt, findNextSibling, sameParentTopicsOf, parentRefChain, jsOr, jsString,
    topicItemKey, sortByLe, insertLe, scanGreater, List.find?, List.filter_cons,
    List.findIdx?, findNextByParent, dbItemKey, firstTopicByIdAsc, topicIdKey,
    truthy, hd, s11, s12, d12]

/-- C5 witness: the next-parent scenario at topic ids 30 and 40. -/
theorem nextTopic_next_parent_first_topic_witness :
    (30 : Int) < 40 ∧
    getNextTopic (c5DB 30 40) (vnum 5) = NTResult.found (c5T3 30) := by
  exact ⟨by decide, nextTopic_next_parent_first_topic 30 40 (by decide)⟩

/-- C6: `getNextTopic` yields the 404 result exactly when the current
topic cannot be resolved or its resolved row carries no label; whenever
topic and label resolve but neither the sibling scan nor the
next-parent-label search yields a topic, the call succeeds with the
terminal null result. -/
theorem nextTopic_notFound_characterisation (db : DB) (tid : JSVal) :
    (getNextTopic db tid = NTResult.notFound ↔
      getTopicInfo db tid = none ∨ ∃ t, getTopicInfo db tid = some t ∧ t.label = none) ∧
    (∀ t l, getTopicInfo db tid = some t → t.label = some l →
      findNextSibling db.topics t l = none → findNextByParent db l = none →
      getNextTopic db tid = NTResult.endOfCourse) := by
  constructor
  · unfold getNextTopic
    cases hti : getTopicInfo db tid with
    | none => simp
    | some t =>
      cases hl : t.label with
      | none => simp [hl]
      | some l =>
        cases hs : findNextSibling db.topics t l with
        | some t2 => simp [hl, hs]
        | none =>
          cases hp : findNextByParent db l with
          | some t2 => simp [hl, hs, hp]
          | none => simp [hl, hs, hp]
  · intro t l hti hl hs hp
    unfold getNextTopic
    rw [hti]
    simp [hl, hs, hp]

/-- C6 witness: a one-topic store whose label has no parent reference
ends the course with the null success, not an error. -/
theorem nextTopic_notFound_characterisation_witness :
    getTopicInfo c6DB (vnum 9) = some c6Top ∧
    c6Top.label = some c6Lab ∧
    findNextSibling c6DB.topics c6Top c6Lab = none ∧
    findNextByParent c6DB c6Lab = none ∧
    getNextTopic c6DB (vnum 9) = NTResult.endOfCourse := by
  refine ⟨by decide, by decide, by decide, by decide, ?_⟩
  exact (nextTopic_notFound_characterisation c6DB (vnum 9)).2 c6Top c6Lab
    (by decide) (by decide) (by decide) (by decide)

/-- C7: for every input, the connection list `generateMindMap` builds
contains no two edges with the same `(from, to)` pair — both passes add
an edge only after checking the shared list. -/
theorem connections_no_duplicate_pairs (level1 level2 : List Label) (stackRows : List Stack) :
    (connectionsOf level1 level2 stackRows).Pairwise connKeyDistinct := by
  unfold connectionsOf
  exact l2StackConns_pairwise _ _ _ _ (l1l2Conns_pairwise _ _ _ _ List.Pairwise.nil)

/-- C8 counterexample: with `parent_node: 0` (non-null) and
`parent_node_id: 5`, the alias chain — built with JS `||` — skips the
falsy `0` and uses `5`, so the first non-null alias is not the one
used. -/
theorem parentRef_skips_falsy_alias_cx :
    parentRefChain (Label.mk (vnum 9) vnull vnull (vnum 2) (vnum 0) (vnum 5)
        vnull vnull vnull vnull) = vnum 5 ∧
    (Label.mk (vnum 9) vnull vnull (vnum 2) (vnum 0) (vnum 5)
        vnull vnull vnull vnull).parent_node = vnum 0 ∧
    (Label.mk (vnum 9) vnull vnull (vnum 2) (vnum 0) (vnum 5)
        vnull vnull vnull vnull).parent_node ≠ vnull ∧
    vnum 5 ≠ vnum 0 := by decide

/-- C8 amended: the reference value used is the first alias, in the
fixed priority order, whose value is truthy (so a numeric 0, an empty
string, null and undefined are all skipped); when every alias is falsy
the chain evaluates to the last alias's value. -/
theorem parentRef_eq_first_truthy_alias (l : Label) :
    parentRefChain l = firstTruthyAlias l := by
  unfold parentRefChain firstTruthyAlias jsOr
  simp only [List.find?]
  cases h1 : truthy l.parent_node <;>
  cases h2 : truthy l.parent_node_id <;>
  cases h3 : truthy l.parent_id <;>
  cases h4 : truthy l.parent <;>
  cases h5 : truthy l.parent_label_id <;>
  cases h6 : truthy l.parent_label <;>
  simp [h1, h2, h3, h4, h5, h6]

/-- C9: from an unanswered question state, a correct submission bumps
the correct count exactly once for an unseen question id, leaves it
unchanged for an already-counted id, and a repeat submit after the
correct one is a complete no-op; an incorrect submission never changes
the count, locks exactly the chosen option and leaves the question
answerable. -/
theorem quiz_correct_count_idempotent (st : QuizState) (qid : String) (opts : List String)
    (i j : Nat) (hun : st.questionAnswered = false) :
    (opts.getD i "" = "true" →
      ((qid ∉ st.answeredQuestions →
          (submitAnswer st qid opts (some i)).correctAnswers = st.correctAnswers + 1) ∧
       (qid ∈ st.answeredQuestions →
          (submitAnswer st qid opts (some i)).correctAnswers = st.correctAnswers) ∧
       submitAnswer (submitAnswer st qid opts (some i)) qid opts (some j)
         = submitAnswer st qid opts (some i))) ∧
    (opts.getD j "" ≠ "true" →
      (submitAnswer st qid opts (some j)).correctAnswers = st.correctAnswers ∧
      (submitAnswer st qid opts (some j)).locked = [j] ∧
      (submitAnswer st qid opts (some j)).questionAnswered = false) := by
  constructor
  · intro hcor
    have hc : (opts.getD i "" == "true") = true := by simpa using hcor
    refine ⟨?_, ?_, ?_⟩
    · intro hmem
      simp only [submitAnswer, hun, hc]
      simp [hmem]
    · intro hmem
      simp only [submitAnswer, hun, hc]
      simp [hmem]
    · simp only [submitAnswer, hun, hc]
      simp
  · intro hwrong
    have hw : (opts.getD j "" == "true") = false := by simpa using hwrong
    refine ⟨?_, ?_, ?_⟩ <;> simp only [submitAnswer, hun, hw] <;> simp

/-- C9 witness: a two-option question; the correct option at index 1
counts once (also on repeat submit), the wrong option at index 0 locks
only itself. -/
theorem quiz_correct_count_idempotent_witness :
    (QuizState.mk 0 [] false []).questionAnswered = false ∧
    ["false", "true"].getD 1 "" = "true" ∧
    (submitAnswer (QuizState.mk 0 [] false []) "q1" ["false", "true"] (some 1)).correctAnswers
      = 1 ∧
    submitAnswer (submitAnswer (QuizState.mk 0 [] false []) "q1" ["false", "true"] (some 1))
        "q1" ["false", "true"] (some 1)
      = submitAnswer (QuizState.mk 0 [] false []) "q1" ["false", "true"] (some 1) ∧
    (submitAnswer (QuizState.mk 0 [] false []) "q1" ["false", "true"] (some 0)).locked = [0] := by
  have h := quiz_correct_count_idempotent (QuizState.mk 0 [] false []) "q1"
    ["false", "true"] 1 0 rfl
  refine ⟨rfl, rfl, ?_, ?_, ?_⟩
  · exact ((h.1 (by decide)).1 (by simp))
  · exact (h.1 (by decide)).2.2
  · exact (h.2 (by decide)).2.1

/-- C10: every prompt that is null/undefined, not a string, or
whitespace-only (empty trim) produces the 400 result before the
upstream call is reached; conversely the upstream call happens only for
a string prompt with non-empty trim and the API key configured, and is
passed the trimmed prompt. -/
theorem llm_request_validation (apiKeySet : Bool) (prompt : JSVal) :
    ((prompt = JSVal.vnull ∨ (∀ s, prompt ≠ JSVal.vstr s) ∨
        (∃ s, prompt = JSVal.vstr s ∧ jsTrim s = "")) →
      handleLLMRequest apiKeySet prompt = LLMOutcome.badRequest) ∧
    (∀ c, handleLLMRequest apiKeySet prompt = LLMOutcome.upstreamCall c →
      apiKeySet = true ∧ ∃ s, prompt = JSVal.vstr s ∧ jsTrim s = c ∧ jsTrim s ≠ "") := by
  constructor
  · rintro (rfl | hns | ⟨s, rfl, hws⟩)
    · rfl
    · cases prompt with
      | vnull => rfl
      | vnum n => simp [handleLLMRequest, truthy]
      | vstr s => exact absurd rfl (hns s)
    · simp [handleLLMRequest, truthy, hws]
  · intro c h
    cases prompt with
    | vnull => simp [handleLLMRequest, truthy] at h
    | vnum n =>
      simp only [handleLLMRequest, truthy] at h
      split at h <;> simp_all
    | vstr s =>
      simp only [handleLLMRequest, truthy] at h
      split at h <;> try simp_all
      split at h <;> try simp_all
      split at h <;> try simp_all
      rintro rfl
      simp_all

/-- C10 witness: a whitespace-only prompt is rejected with the 400
result. -/
theorem llm_request_validation_witness :
    handleLLMRequest true (vstr "   ") = LLMOutcome.badRequest := by
  exact (llm_request_validation true (vstr "   ")).1
    (Or.inr (Or.inr ⟨"   ", rfl, by decide⟩))
